import Mathlib

/-!
Shallow embedding of `schnetkit/ase/converter.py`: a neighbor-list cache
(`Converter`) wrapping an external environment provider and an external
representation converter.  Positions, cells and times are modelled over ℚ
(the source uses numpy floats); the external capabilities are parameters.
-/

namespace Schnetkit

/-- A row of a numpy position array: one atom's 3D coordinates. -/
abbrev Vec3 := ℚ × ℚ × ℚ

/-- Coordinate access into a 3D row. -/
def Vec3.coord (v : Vec3) (j : Fin 3) : ℚ :=
  if j = 0 then v.1 else if j = 1 then v.2.1 else v.2.2

/-- A 3×3 lattice cell matrix (three row vectors), `atoms.get_cell()` in the
source. -/
abbrev Cell := Vec3 × Vec3 × Vec3

/-- Element access into the cell matrix. -/
def Cell.elem (c : Cell) (i j : Fin 3) : ℚ :=
  Vec3.coord (if i = 0 then c.1 else if i = 1 then c.2.1 else c.2.2) j

/-- The three periodic-boundary flags, `atoms.get_pbc()` in the source. -/
abbrev Pbc := Bool × Bool × Bool

/-- Access into the flag vector. -/
def Pbc.flag (b : Pbc) (i : Fin 3) : Bool :=
  if i = 0 then b.1 else if i = 1 then b.2.1 else b.2.2

/-- An `ase.Atoms` object as the converter observes it: positions, cell
and periodic flags (the only fields `converter.py` reads). -/
structure Config where
  positions : List Vec3
  cell : Cell
  pbc : Pbc
deriving DecidableEq

/-- The namedtuple `Neighborhood = namedtuple("Neighborhood", ["idx", "offset"])`.
The payloads are produced by the external environment provider; their shape
is opaque to `converter.py`, so a concrete representative type is used. -/
structure Neighborhood where
  idx : List (ℕ × ℕ)
  offset : List Vec3
deriving DecidableEq

/-- The namedtuple `Converted = namedtuple("Converted", ["inputs", "neighborhood"])`. -/
structure Converted (I : Type) where
  inputs : I
  neighborhood : Neighborhood
deriving DecidableEq

/-- Squared Euclidean displacement of one atom: one entry of
`((my_positions - new_positions) ** 2).sum(1)` in `_needs_update`. -/
def sqDist (p q : Vec3) : ℚ :=
  (p.1 - q.1) ^ 2 + (p.2.1 - q.2.1) ^ 2 + (p.2.2 - q.2.2) ^ 2

/-- The staleness scalar of `_needs_update`:
`((my_positions - new_positions) ** 2).sum(1).max()`.
numpy's `.max()` raises on an empty array, so the model only agrees with the
source on configurations with at least one atom; theorems carry that
hypothesis where it matters. -/
def maxSqDisp (ps qs : List Vec3) : ℚ := (List.zipWith sqDist ps qs).foldr max 0

/-- The mutable state of a `Converter` instance.  `cutoff` holds the stored
`self.cutoff = cutoff + skin`; `atoms` is `self.atoms`, `neighborhood` is
`self.neighborhood` (both `None` at construction).  The device handle is an
external, read-only capability that the cached logic never consults, so it
is omitted from the state. -/
structure Converter where
  skin : ℚ
  cutoff : ℚ
  atoms : Option Config
  neighborhood : Option Neighborhood
deriving DecidableEq

/-- Constructor `Converter.__init__(cutoff, device, skin)`: stores `skin`,
stores the effective cutoff `cutoff + skin`, and leaves both cache fields
absent. -/
def Converter.init (cutoff skin : ℚ) : Converter :=
  { skin := skin, cutoff := cutoff + skin, atoms := none, neighborhood := none }

/-- Method `Converter._needs_update(atoms)`, with `self.atoms` passed
explicitly as `cached`: stale when any cell element or any periodic flag
differs, else when the maximal squared displacement strictly exceeds
`self.skin ** 2`. -/
def Converter.needsUpdateFrom (st : Converter) (cached cfg : Config) : Bool :=
  if cached.cell ≠ cfg.cell ∨ cached.pbc ≠ cfg.pbc then
    true
  else
    decide (maxSqDisp cached.positions cfg.positions > st.skin ^ 2)

/-- Method `Converter.needs_update(atoms)`: `True` when `self.atoms is None`,
else defer to `_needs_update`.  (The source also assigns `self.atoms = atoms`
in the `None` branch; `__call__` immediately overwrites it with
`atoms.copy()`, so under the value semantics of this embedding the
assignment has no further effect.) -/
def Converter.needsUpdate (st : Converter) (cfg : Config) : Bool :=
  match st.atoms with
  | none => true
  | some cached => st.needsUpdateFrom cached cfg

/-- Method `Converter.capture_nl_construction_time(**kwargs)`:
`'nl_construction_time' in kwargs and kwargs['nl_construction_time']`.
The kwargs are modelled as `none` (key absent) or `some b` (key present
with boolean value `b`). -/
def capture_nl_construction_time (kwargs : Option Bool) : Bool :=
  match kwargs with
  | none => false
  | some b => b

/-- Method `Converter.get_neighborhood(atoms)`: queries the environment
provider (constructed with `cutoff=self.cutoff`) and wraps the resulting
pair in a `Neighborhood`.  The external `AseEnvironmentProvider` is the
parameter `env`, which may raise (model: `Except`). -/
def Converter.get_neighborhood {E : Type} (env : ℚ → Config → Except E (List (ℕ × ℕ) × List Vec3))
    (st : Converter) (atoms : Config) : Except E Neighborhood :=
  match env st.cutoff atoms with
  | Except.error e => Except.error e
  | Except.ok (idx, offset) => Except.ok ⟨idx, offset⟩

/-- Class `FakeEnvironmentProvider`: stores a neighborhood at construction. -/
structure FakeEnvironmentProvider where
  neighborhood : Neighborhood

/-- Method `FakeEnvironmentProvider.get_environment(atoms)`: returns the
stored `(idx, offset)` pair, ignoring its argument. -/
def FakeEnvironmentProvider.get_environment (p : FakeEnvironmentProvider) (_atoms : Config) :
    List (ℕ × ℕ) × List Vec3 :=
  (p.neighborhood.idx, p.neighborhood.offset)

/-- The value returned by `Converter.__call__`: a bare `Converted` when the
timing flag is off, or a `(Converted, nl_construction_time)` pair when it is
on (`nl_construction_time` is `None` — here `none` — when no recomputation
happened). -/
inductive ProcessResult (I : Type) where
  | plain (c : Converted I)
  | timed (c : Converted I) (nlConstructionTime : Option ℚ)
deriving DecidableEq

/-- The `Converted` carried by either form of the result. -/
def ProcessResult.converted {I : Type} : ProcessResult I → Converted I
  | .plain c => c
  | .timed c _ => c

/-- The duration slot of the result: `none` when the result is the bare
`Converted` form, `some t` when the timed form carries `t`. -/
def ProcessResult.duration {I : Type} : ProcessResult I → Option (Option ℚ)
  | .plain _ => none
  | .timed _ t => some t

/-- Everything observable about one `__call__`: the state of `self`
afterwards (also when an exception propagates), the returned value or the
exception, and the trace of invocations of the external environment
provider, each recorded as (cutoff used, configuration passed). -/
structure ProcessOut (I E : Type) where
  state : Converter
  result : Except E (ProcessResult I)
  envCalls : List (ℚ × Config)

/-- Method `Converter.__call__(atoms, **kwargs)`.

External parameters: `env` is the `AseEnvironmentProvider.get_environment`
capability; `build` is the SchnetPack `AtomsConverter` applied to `atoms`,
abstracted over the environment-provider function it is handed (the source
hands it `FakeEnvironmentProvider(self.neighborhood)`).  The monotonic
clock readings taken before and after `get_neighborhood` are the parameters
`t0` and `t1` (`time.monotonic()` guarantees `t0 ≤ t1`; they are only
consulted when the timing flag is on and a recomputation runs).

When stale, `self.atoms` is overwritten with a copy of the incoming
configuration (value semantics: the value itself) before the provider runs,
so a provider exception leaves that overwrite in place — the `error` branch
reports exactly that intermediate state.

In the cache-hit branch the source reads `self.neighborhood`, which is
necessarily set there (a hit requires `self.atoms is not None`, and every
path that sets `self.atoms` also sets `self.neighborhood` before returning);
the `Option.getD` default is never reached from a reachable state, and
theorems about hits carry `st.neighborhood = some nb`. -/
def Converter.process {I E : Type} (env : ℚ → Config → Except E (List (ℕ × ℕ) × List Vec3))
    (build : Config → (Config → List (ℕ × ℕ) × List Vec3) → I)
    (st : Converter) (cfg : Config) (kwargs : Option Bool) (t0 t1 : ℚ) :
    ProcessOut I E :=
  let capture := capture_nl_construction_time kwargs
  if st.needsUpdate cfg then
    let st1 : Converter := { st with atoms := some cfg }
    match Converter.get_neighborhood env st1 cfg with
    | Except.error e =>
        { state := st1, result := Except.error e, envCalls := [(st.cutoff, cfg)] }
    | Except.ok nb =>
        let st2 : Converter := { st1 with neighborhood := some nb }
        let t : Option ℚ := if capture then some (t1 - t0) else none
        let inputs := build cfg (FakeEnvironmentProvider.get_environment ⟨nb⟩)
        let conv : Converted I := ⟨inputs, nb⟩
        { state := st2,
          result := Except.ok
            (if capture then ProcessResult.timed conv t else ProcessResult.plain conv),
          envCalls := [(st.cutoff, cfg)] }
  else
    let nb := st.neighborhood.getD ⟨[], []⟩
    let inputs := build cfg (FakeEnvironmentProvider.get_environment ⟨nb⟩)
    let conv : Converted I := ⟨inputs, nb⟩
    { state := st,
      result := Except.ok
        (if capture then ProcessResult.timed conv none else ProcessResult.plain conv),
      envCalls := [] }

/-- The neighborhood carried by a successful result, if any. -/
def resultNeighborhood {I E : Type} : Except E (ProcessResult I) → Option Neighborhood
  | Except.ok r => some r.converted.neighborhood
  | Except.error _ => none

/-! Concrete data used by witnesses and counterexamples. -/

/-- The zero cell used by the witness configurations. -/
def cellW : Cell := ((0, 0, 0), (0, 0, 0), (0, 0, 0))

/-- A diagonal cell differing from `cellW`. -/
def cellW7 : Cell := ((7, 0, 0), (0, 7, 0), (0, 0, 7))

/-- A two-atom configuration in the zero cell with no periodicity. -/
def cfgW : Config :=
  { positions := [(0, 0, 0), (1, 0, 0)], cell := cellW, pbc := (false, false, false) }

/-- `cfgW` with the second atom displaced by exactly 1 along y. -/
def cfgW1 : Config :=
  { positions := [(0, 0, 0), (1, 1, 0)], cell := cellW, pbc := (false, false, false) }

/-- `cfgW` with the second atom displaced by exactly 2 along y. -/
def cfgW2 : Config :=
  { positions := [(0, 0, 0), (1, 2, 0)], cell := cellW, pbc := (false, false, false) }

/-- `cfgW` with a changed cell, positions identical. -/
def cfgWCell : Config :=
  { positions := [(0, 0, 0), (1, 0, 0)], cell := cellW7, pbc := (false, false, false) }

/-- `cfgW` with one periodic flag changed, cell and positions identical. -/
def cfgWPbc : Config :=
  { positions := [(0, 0, 0), (1, 0, 0)], cell := cellW, pbc := (true, false, false) }

/-- A concrete neighborhood value. -/
def nbW : Neighborhood := { idx := [(0, 1), (1, 0)], offset := [(0, 0, 0), (0, 0, 0)] }

/-- An environment provider that always succeeds with `nbW`'s payload. -/
def envW : ℚ → Config → Except Unit (List (ℕ × ℕ) × List Vec3) :=
  fun _ _ => Except.ok (nbW.idx, nbW.offset)

/-- An environment provider that always raises. -/
def envErr : ℚ → Config → Except Unit (List (ℕ × ℕ) × List Vec3) :=
  fun _ _ => Except.error ()

/-- A trivial representation builder. -/
def buildW : Config → (Config → List (ℕ × ℕ) × List Vec3) → ℕ :=
  fun _ _ => 0

/-- An initialized converter state with skin 1: as after a first call with `cfgW`. -/
def stW : Converter :=
  { skin := 1, cutoff := 6, atoms := some cfgW, neighborhood := some nbW }

/-- An initialized converter state with skin 0, caching `cfgW`; reached by a
first call on `Converter.init 5 0`. -/
def stW0 : Converter :=
  ((Converter.init 5 0).process envW buildW cfgW none 0 0).state

/-! Helper lemmas shared by the claim theorems. -/

/-- Two cells differ exactly when some element differs — the meaning of
numpy's elementwise `(a != b).any()` on 3×3 arrays. -/
theorem cell_ne_iff (u v : Cell) : u ≠ v ↔ ∃ i j, u.elem i j ≠ v.elem i j := by
  constructor
  · intro hne
    by_contra hno
    push_neg at hno
    apply hne
    obtain ⟨⟨a, b, c⟩, ⟨d, e, f⟩, g, p, r⟩ := u
    obtain ⟨⟨a', b', c'⟩, ⟨d', e', f'⟩, g', p', r'⟩ := v
    have h00 := hno 0 0; have h01 := hno 0 1; have h02 := hno 0 2
    have h10 := hno 1 0; have h11 := hno 1 1; have h12 := hno 1 2
    have h20 := hno 2 0; have h21 := hno 2 1; have h22 := hno 2 2
    simp only [Cell.elem, Vec3.coord] at h00 h01 h02 h10 h11 h12 h20 h21 h22
    norm_num at h00 h01 h02 h10 h11 h12 h20 h21 h22
    simp_all
  · rintro ⟨i, j, hij⟩ rfl
    exact hij rfl

/-- Two flag vectors differ exactly when some flag differs. -/
theorem pbc_ne_iff (u v : Pbc) : u ≠ v ↔ ∃ i, u.flag i ≠ v.flag i := by
  obtain ⟨a, b, c⟩ := u
  obtain ⟨a', b', c'⟩ := v
  revert a b c a' b' c'
  decide

theorem sqDist_nonneg (p q : Vec3) : 0 ≤ sqDist p q := by
  unfold sqDist
  positivity

theorem sqDist_eq_zero_iff (p q : Vec3) : sqDist p q = 0 ↔ p = q := by
  unfold sqDist
  obtain ⟨a, b, c⟩ := p
  obtain ⟨a', b', c'⟩ := q
  constructor
  · intro h
    simp only at h
    have h1 : a = a' := by nlinarith [sq_nonneg (a - a'), sq_nonneg (b - b'), sq_nonneg (c - c')]
    have h2 : b = b' := by nlinarith [sq_nonneg (a - a'), sq_nonneg (b - b'), sq_nonneg (c - c')]
    have h3 : c = c' := by nlinarith [sq_nonneg (a - a'), sq_nonneg (b - b'), sq_nonneg (c - c')]
    simp [h1, h2, h3]
  · intro h
    rw [h]
    ring

theorem sqDist_pos_iff (p q : Vec3) : 0 < sqDist p q ↔ p ≠ q := by
  constructor
  · intro h hpq
    rw [← sqDist_eq_zero_iff p q] at hpq
    exact lt_irrefl 0 (hpq ▸ h)
  · intro h
    rcases (sqDist_nonneg p q).lt_or_eq with hlt | heq
    · exact hlt
    · exact absurd ((sqDist_eq_zero_iff p q).mp heq.symm) h

/-- A fold with `max` over a list, seeded with `0`, exceeds a non-negative
threshold exactly when some element does. -/
theorem foldr_max_gt_iff (l : List ℚ) (t : ℚ) (ht : 0 ≤ t) :
    t < l.foldr max 0 ↔ ∃ x ∈ l, t < x := by
  induction l with
  | nil =>
    simp only [List.foldr_nil, List.not_mem_nil]
    exact iff_of_false (not_lt.mpr ht) (by simp)
  | cons a l ih =>
    simp only [List.foldr_cons, lt_max_iff, ih, List.mem_cons]
    constructor
    · rintro (h | ⟨x, hx, hxt⟩)
      · exact ⟨a, Or.inl rfl, h⟩
      · exact ⟨x, Or.inr hx, hxt⟩
    · rintro ⟨x, hx | hx, hxt⟩
      · exact Or.inl (hx ▸ hxt)
      · exact Or.inr ⟨x, hx, hxt⟩

/-- For equally long position lists, the staleness scalar is positive
exactly when the lists differ somewhere. -/
theorem maxSqDisp_pos_iff (ps qs : List Vec3) (hlen : ps.length = qs.length) :
    0 < maxSqDisp ps qs ↔ ps ≠ qs := by
  induction ps generalizing qs with
  | nil =>
    cases qs with
    | nil => simp [maxSqDisp]
    | cons b qs => simp at hlen
  | cons a ps ih =>
    cases qs with
    | nil => simp at hlen
    | cons b qs =>
      have hlen' : ps.length = qs.length := by simpa using hlen
      unfold maxSqDisp at *
      simp only [List.zipWith_cons_cons, List.foldr_cons, lt_max_iff]
      rw [sqDist_pos_iff, ih qs hlen']
      constructor
      · rintro (h | h) <;> simp [h]
      · intro h
        by_cases hab : a = b
        · subst hab
          have : ps ≠ qs := fun he => h (he ▸ rfl)
          exact Or.inr this
        · exact Or.inl hab

/-- Characterization of `_needs_update` as a proposition. -/
theorem needsUpdateFrom_eq_true_iff (st : Converter) (cached cfg : Config) :
    st.needsUpdateFrom cached cfg = true ↔
      (cached.cell ≠ cfg.cell ∨ cached.pbc ≠ cfg.pbc ∨
        st.skin ^ 2 < maxSqDisp cached.positions cfg.positions) := by
  unfold Converter.needsUpdateFrom
  by_cases h : cached.cell ≠ cfg.cell ∨ cached.pbc ≠ cfg.pbc
  · rw [if_pos h]
    exact iff_of_true rfl (by tauto)
  · rw [if_neg h]
    push_neg at h
    simp [h.1, h.2, gt_iff_lt]

/-- On an initialized cache, `needs_update` defers to `_needs_update`. -/
theorem needsUpdate_some (st : Converter) (cached cfg : Config) (hc : st.atoms = some cached) :
    st.needsUpdate cfg = st.needsUpdateFrom cached cfg := by
  unfold Converter.needsUpdate
  rw [hc]

/-- C1: on an initialized cache and an incoming configuration with the same
(positive) atom count, `needs_update` is true exactly when some cell element
differs, or some periodic flag differs, or the maximal squared displacement
strictly exceeds skin squared; otherwise the cached neighborhood is reused. -/
theorem needs_update_characterization (st : Converter) (cached cfg : Config)
    (hc : st.atoms = some cached)
    (hlen : cfg.positions.length = cached.positions.length)
    (hpos : cached.positions ≠ []) :
    st.needsUpdate cfg = true ↔
      ((∃ i j, Cell.elem cfg.cell i j ≠ Cell.elem cached.cell i j) ∨
       (∃ i, Pbc.flag cfg.pbc i ≠ Pbc.flag cached.pbc i) ∨
       st.skin ^ 2 < maxSqDisp cached.positions cfg.positions) := by
  rw [needsUpdate_some st cached cfg hc, needsUpdateFrom_eq_true_iff, cell_ne_iff, pbc_ne_iff]
  constructor
  · rintro (⟨i, j, h⟩ | ⟨i, h⟩ | h)
    · exact Or.inl ⟨i, j, h.symm⟩
    · exact Or.inr (Or.inl ⟨i, h.symm⟩)
    · exact Or.inr (Or.inr h)
  · rintro (⟨i, j, h⟩ | ⟨i, h⟩ | h)
    · exact Or.inl ⟨i, j, h.symm⟩
    · exact Or.inr (Or.inl ⟨i, h.symm⟩)
    · exact Or.inr (Or.inr h)

/-- Witness for C1 at a concrete state and configuration. -/
theorem needs_update_characterization_witness :
    stW.needsUpdate cfgW2 = true ↔
      ((∃ i j, Cell.elem cfgW2.cell i j ≠ Cell.elem cfgW.cell i j) ∨
       (∃ i, Pbc.flag cfgW2.pbc i ≠ Pbc.flag cfgW.pbc i) ∨
       stW.skin ^ 2 < maxSqDisp cfgW.positions cfgW2.positions) :=
  needs_update_characterization stW cfgW cfgW2 rfl rfl (by decide)

/-- C2: a freshly constructed converter (both cache fields absent) treats any
first call as stale and performs exactly one environment-provider
invocation. -/
theorem first_call_recomputes {I E : Type}
    (env : ℚ → Config → Except E (List (ℕ × ℕ) × List Vec3))
    (build : Config → (Config → List (ℕ × ℕ) × List Vec3) → I)
    (c s : ℚ) (cfg : Config) (kwargs : Option Bool) (t0 t1 : ℚ) :
    (Converter.init c s).needsUpdate cfg = true ∧
    ((Converter.init c s).process env build cfg kwargs t0 t1).envCalls.length = 1 := by
  refine ⟨rfl, ?_⟩
  unfold Converter.process
  simp only [show (Converter.init c s).needsUpdate cfg = true from rfl, if_true]
  cases Converter.get_neighborhood env { Converter.init c s with atoms := some cfg } cfg <;> rfl

/-- C3: with cell and flags unchanged, a maximal squared displacement equal
to skin squared is a cache hit (strict comparison), while a maximal
displacement of skin + epsilon for positive epsilon is stale. -/
theorem skin_threshold_strict (st : Converter) (cached : Config)
    (hc : st.atoms = some cached) (hskin : 0 ≤ st.skin) :
    (∀ cfg : Config, cfg.cell = cached.cell → cfg.pbc = cached.pbc →
        maxSqDisp cached.positions cfg.positions = st.skin ^ 2 →
        st.needsUpdate cfg = false) ∧
    (∀ (cfg : Config) (ε : ℚ), 0 < ε → cfg.cell = cached.cell → cfg.pbc = cached.pbc →
        maxSqDisp cached.positions cfg.positions = (st.skin + ε) ^ 2 →
        st.needsUpdate cfg = true) := by
  constructor
  · intro cfg hcell hpbc hdisp
    rw [needsUpdate_some st cached cfg hc]
    cases hb : st.needsUpdateFrom cached cfg
    · rfl
    · exfalso
      rcases (needsUpdateFrom_eq_true_iff st cached cfg).mp hb with h | h | h
      · exact h hcell.symm
      · exact h hpbc.symm
      · rw [hdisp] at h
        exact lt_irrefl _ h
  · intro cfg ε hε hcell hpbc hdisp
    rw [needsUpdate_some st cached cfg hc]
    refine (needsUpdateFrom_eq_true_iff st cached cfg).mpr (Or.inr (Or.inr ?_))
    rw [hdisp]
    nlinarith [hskin, hε]

/-- Witness for C3: with skin 1, a displacement of exactly 1 is a hit and a
displacement of 2 = 1 + 1 is stale. -/
theorem skin_threshold_strict_witness :
    stW.needsUpdate cfgW1 = false ∧ stW.needsUpdate cfgW2 = true := by
  have h := skin_threshold_strict stW cfgW rfl (by norm_num [stW])
  refine ⟨h.1 cfgW1 rfl rfl ?_, h.2 cfgW2 1 (by norm_num) rfl rfl ?_⟩
  · norm_num [maxSqDisp, sqDist, cfgW, cfgW1, stW, max_def]
  · norm_num [maxSqDisp, sqDist, cfgW, cfgW2, stW, max_def]

/-- C4: any elementwise change of the cell, or any change of a periodic
flag, forces recomputation even when every atomic position is unchanged. -/
theorem cell_or_pbc_change_forces_update (st : Converter) (cached cfg : Config)
    (hc : st.atoms = some cached)
    (hpos : cfg.positions = cached.positions)
    (h : (∃ i j, Cell.elem cfg.cell i j ≠ Cell.elem cached.cell i j) ∨
         (∃ i, Pbc.flag cfg.pbc i ≠ Pbc.flag cached.pbc i)) :
    st.needsUpdate cfg = true := by
  rw [needsUpdate_some st cached cfg hc]
  refine (needsUpdateFrom_eq_true_iff st cached cfg).mpr ?_
  rcases h with ⟨i, j, hij⟩ | ⟨i, hi⟩
  · exact Or.inl ((cell_ne_iff cached.cell cfg.cell).mpr ⟨i, j, hij.symm⟩)
  · exact Or.inr (Or.inl ((pbc_ne_iff cached.pbc cfg.pbc).mpr ⟨i, hi.symm⟩))

/-- Witness for C4: a changed cell element, and separately a changed flag,
each with identical positions, are stale. -/
theorem cell_or_pbc_change_forces_update_witness :
    stW.needsUpdate cfgWCell = true ∧ stW.needsUpdate cfgWPbc = true :=
  ⟨cell_or_pbc_change_forces_update stW cfgW cfgWCell rfl rfl (by decide),
   cell_or_pbc_change_forces_update stW cfgW cfgWPbc rfl rfl (by decide)⟩

/-- C5 counterexample: a converter with skin 0 (state reached by a first
call caching `cfgW`) serves a second call with the identical configuration
from the cache — zero environment-provider invocations — refuting that with
skin 0 every call triggers recomputation. -/
theorem skin_zero_counterexample :
    stW0.skin = 0 ∧
    stW0.atoms = some cfgW ∧
    stW0.needsUpdate cfgW = false ∧
    (stW0.process envW buildW cfgW none 0 0).envCalls = [] := by
  have hskin : stW0.skin = 0 := rfl
  have hatoms : stW0.atoms = some cfgW := rfl
  have hneed : stW0.needsUpdate cfgW = false := by
    rw [needsUpdate_some stW0 cfgW cfgW hatoms]
    unfold Converter.needsUpdateFrom
    rw [if_neg (by simp)]
    rw [hskin]
    simp only [decide_eq_false_iff_not, not_lt]
    norm_num [maxSqDisp, sqDist, cfgW, max_def]
  refine ⟨hskin, hatoms, hneed, ?_⟩
  unfold Converter.process
  simp [hneed]

/-- C5 amended: with skin 0, a call on an initialized cache recomputes
exactly when the configuration differs from the cached one in some cell
element, periodic flag, or atomic position; an identical configuration is a
cache hit. -/
theorem skin_zero_update_iff_changed (st : Converter) (cached cfg : Config)
    (hc : st.atoms = some cached) (hskin : st.skin = 0)
    (hlen : cfg.positions.length = cached.positions.length)
    (hpos : cached.positions ≠ []) :
    st.needsUpdate cfg = true ↔
      (cached.cell ≠ cfg.cell ∨ cached.pbc ≠ cfg.pbc ∨ cached.positions ≠ cfg.positions) := by
  rw [needsUpdate_some st cached cfg hc, needsUpdateFrom_eq_true_iff, hskin]
  have h0 : (0 : ℚ) ^ 2 = 0 := by norm_num
  rw [h0, maxSqDisp_pos_iff cached.positions cfg.positions hlen.symm]

/-- Witness for C5's amended claim: with skin 0 a one-coordinate position
change is stale. -/
theorem skin_zero_update_iff_changed_witness :
    stW0.needsUpdate cfgW1 = true ↔
      (cfgW.cell ≠ cfgW1.cell ∨ cfgW.pbc ≠ cfgW1.pbc ∨ cfgW.positions ≠ cfgW1.positions) :=
  skin_zero_update_iff_changed stW0 cfgW cfgW1 rfl rfl rfl (by decide)

/-- C6: on a cache hit the state (both cached fields) is unchanged, the
environment provider is not invoked, and the returned neighborhood is the
cached one — the value stored, and returned, by the prior call. -/
theorem cache_hit_frame {I E : Type}
    (env : ℚ → Config → Except E (List (ℕ × ℕ) × List Vec3))
    (build : Config → (Config → List (ℕ × ℕ) × List Vec3) → I)
    (st : Converter) (cfg : Config) (kwargs : Option Bool) (t0 t1 : ℚ) (nb : Neighborhood)
    (hnb : st.neighborhood = some nb)
    (hhit : st.needsUpdate cfg = false) :
    (st.process env build cfg kwargs t0 t1).state = st ∧
    (st.process env build cfg kwargs t0 t1).envCalls = [] ∧
    resultNeighborhood (st.process env build cfg kwargs t0 t1).result = some nb := by
  unfold Converter.process
  simp only [hhit, Bool.false_eq_true, if_false, hnb, Option.getD_some]
  refine ⟨by trivial, by trivial, ?_⟩
  by_cases hcap : capture_nl_construction_time kwargs = true <;>
    simp [hcap, resultNeighborhood, ProcessResult.converted]

/-- Witness for C6 at a concrete hit (identical configuration, skin 1). -/
theorem cache_hit_frame_witness :
    (stW.process envW buildW cfgW (some true) 0 1).state = stW ∧
    (stW.process envW buildW cfgW (some true) 0 1).envCalls = [] ∧
    resultNeighborhood (stW.process envW buildW cfgW (some true) 0 1).result = some nbW := by
  refine cache_hit_frame envW buildW stW cfgW (some true) 0 1 nbW rfl ?_
  rw [needsUpdate_some stW cfgW cfgW rfl]
  unfold Converter.needsUpdateFrom
  rw [if_neg (by simp)]
  simp only [decide_eq_false_iff_not, not_lt]
  norm_num [maxSqDisp, sqDist, cfgW, stW, max_def]

/-- C7: construction stores the effective cutoff `cutoff + skin`; every
environment-provider invocation of a call uses the stored cutoff, the
stored cutoff never changes, and the first call on a fresh converter
returns exactly the provider's output at the effective cutoff. -/
theorem effective_cutoff {I E : Type}
    (env : ℚ → Config → Except E (List (ℕ × ℕ) × List Vec3))
    (build : Config → (Config → List (ℕ × ℕ) × List Vec3) → I)
    (c s : ℚ) (st : Converter) (cfg : Config) (kwargs : Option Bool) (t0 t1 : ℚ) :
    (Converter.init c s).cutoff = c + s ∧
    (∀ p ∈ (st.process env build cfg kwargs t0 t1).envCalls, p.1 = st.cutoff) ∧
    (st.process env build cfg kwargs t0 t1).state.cutoff = st.cutoff ∧
    (∀ f : ℚ → Config → List (ℕ × ℕ) × List Vec3,
      resultNeighborhood
          (((Converter.init c s).process (E := Unit) (fun q a => Except.ok (f q a))
            build cfg kwargs t0 t1).result) =
        some ⟨(f (c + s) cfg).1, (f (c + s) cfg).2⟩) := by
  refine ⟨rfl, ?_, ?_, ?_⟩
  · intro p hp
    unfold Converter.process at hp
    by_cases h : st.needsUpdate cfg = true
    · simp only [h, if_true] at hp
      cases hg : Converter.get_neighborhood env { st with atoms := some cfg } cfg <;>
        rw [hg] at hp <;> simp at hp <;> simp [hp]
    · simp only [h] at hp
      simp at hp
  · unfold Converter.process
    by_cases h : st.needsUpdate cfg = true
    · simp only [h, if_true]
      cases hg : Converter.get_neighborhood env { st with atoms := some cfg } cfg <;>
        simp [hg]
    · simp [h]
  · intro f
    unfold Converter.process
    simp only [show (Converter.init c s).needsUpdate cfg = true from rfl, if_true]
    unfold Converter.get_neighborhood
    simp only [show ({ Converter.init c s with atoms := some cfg } : Converter).cutoff = c + s
      from rfl]
    by_cases hcap : capture_nl_construction_time kwargs = true <;>
      simp [hcap, resultNeighborhood, ProcessResult.converted, Converter.init]

/-- Witness for C7 at cutoff 5 and skin 1/10: the stored cutoff is 51/10. -/
theorem effective_cutoff_witness :
    (Converter.init 5 (1/10)).cutoff = 5 + 1/10 ∧
    (∀ p ∈ (stW.process envW buildW cfgW2 none 0 0).envCalls, p.1 = stW.cutoff) ∧
    (stW.process envW buildW cfgW2 none 0 0).state.cutoff = stW.cutoff ∧
    (∀ f : ℚ → Config → List (ℕ × ℕ) × List Vec3,
      resultNeighborhood
          (((Converter.init 5 (1/10)).process (E := Unit) (fun q a => Except.ok (f q a))
            buildW cfgW2 none 0 0).result) =
        some ⟨(f (5 + 1/10) cfgW2).1, (f (5 + 1/10) cfgW2).2⟩) :=
  effective_cutoff envW buildW 5 (1/10) stW cfgW2 none 0 0

/-- C8: with the timing flag set, a cache hit returns the not-measured
sentinel (`none`) as duration and a successful recomputation returns a
non-negative measured duration; with the flag absent or false the result
carries no duration slot at all. -/
theorem timing_flag_contract {I E : Type}
    (env : ℚ → Config → Except E (List (ℕ × ℕ) × List Vec3))
    (build : Config → (Config → List (ℕ × ℕ) × List Vec3) → I)
    (st : Converter) (cfg : Config) (t0 t1 : ℚ)
    (ht : t0 ≤ t1) :
    (st.needsUpdate cfg = false →
      ∃ c, (st.process env build cfg (some true) t0 t1).result =
        Except.ok (ProcessResult.timed c none)) ∧
    (st.needsUpdate cfg = true →
      ∀ r, (st.process env build cfg (some true) t0 t1).result = Except.ok r →
        ∃ c d, r = ProcessResult.timed c (some d) ∧ 0 ≤ d) ∧
    (∀ kwargs : Option Bool, kwargs = none ∨ kwargs = some false →
      ∀ r, (st.process env build cfg kwargs t0 t1).result = Except.ok r →
        ∃ c, r = ProcessResult.plain c) := by
  refine ⟨?_, ?_, ?_⟩
  · intro hhit
    unfold Converter.process
    simp [hhit, capture_nl_construction_time]
  · intro hmiss r hr
    unfold Converter.process at hr
    simp only [hmiss, if_true] at hr
    cases hg : Converter.get_neighborhood env { st with atoms := some cfg } cfg <;>
      rw [hg] at hr
    · simp at hr
    · simp only [capture_nl_construction_time, if_true] at hr
      simp at hr
      exact ⟨_, t1 - t0, hr.symm, sub_nonneg.mpr ht⟩
  · rintro kwargs hk r hr
    have hcap : capture_nl_construction_time kwargs = false := by
      rcases hk with rfl | rfl <;> rfl
    unfold Converter.process at hr
    by_cases h : st.needsUpdate cfg = true
    · simp only [h, if_true] at hr
      cases hg : Converter.get_neighborhood env { st with atoms := some cfg } cfg <;>
        rw [hg] at hr
      · simp at hr
      · simp only [hcap, Bool.false_eq_true, if_false] at hr
        simp at hr
        exact ⟨_, hr.symm⟩
    · simp only [h] at hr
      simp only [hcap, Bool.false_eq_true, if_false] at hr
      simp at hr
      exact ⟨_, hr.symm⟩

/-- Witness for C8 at a concrete miss with clock readings 0 and 1. -/
theorem timing_flag_contract_witness :
    ((stW.needsUpdate cfgW2 = false →
      ∃ c, (stW.process envW buildW cfgW2 (some true) 0 1).result =
        Except.ok (ProcessResult.timed c none)) ∧
    (stW.needsUpdate cfgW2 = true →
      ∀ r, (stW.process envW buildW cfgW2 (some true) 0 1).result = Except.ok r →
        ∃ c d, r = ProcessResult.timed c (some d) ∧ 0 ≤ d) ∧
    (∀ kwargs : Option Bool, kwargs = none ∨ kwargs = some false →
      ∀ r, (stW.process envW buildW cfgW2 kwargs 0 1).result = Except.ok r →
        ∃ c, r = ProcessResult.plain c)) :=
  timing_flag_contract envW buildW stW cfgW2 0 1 (by norm_num)

/-- C9: the fake provider handed to the representation converter answers
every query, whatever configuration it is asked about, with exactly the
stored `(idx, offset)` pair; and within a call the converter is handed the
provider over precisely the neighborhood the call returns (the cache's
current one). -/
theorem fake_provider_from_cache {I E : Type} (nb : Neighborhood) (a b : Config)
    (env : ℚ → Config → Except E (List (ℕ × ℕ) × List Vec3))
    (build : Config → (Config → List (ℕ × ℕ) × List Vec3) → I)
    (st : Converter) (cfg : Config) (kwargs : Option Bool) (t0 t1 : ℚ) :
    FakeEnvironmentProvider.get_environment ⟨nb⟩ a = (nb.idx, nb.offset) ∧
    FakeEnvironmentProvider.get_environment ⟨nb⟩ a =
      FakeEnvironmentProvider.get_environment ⟨nb⟩ b ∧
    (∀ r, (st.process env build cfg kwargs t0 t1).result = Except.ok r →
      r.converted.inputs =
        build cfg (FakeEnvironmentProvider.get_environment ⟨r.converted.neighborhood⟩)) := by
  refine ⟨rfl, rfl, ?_⟩
  intro r hr
  unfold Converter.process at hr
  by_cases h : st.needsUpdate cfg = true
  · simp only [h, if_true] at hr
    cases hg : Converter.get_neighborhood env { st with atoms := some cfg } cfg <;>
      rw [hg] at hr
    · simp at hr
    · by_cases hcap : capture_nl_construction_time kwargs = true <;>
        simp [hcap] at hr <;> simp [← hr, ProcessResult.converted]
  · simp only [h] at hr
    by_cases hcap : capture_nl_construction_time kwargs = true <;>
      simp [hcap] at hr <;> simp [← hr, ProcessResult.converted]

/-- Witness for C9: concrete fake-provider queries and a concrete call. -/
theorem fake_provider_from_cache_witness :
    FakeEnvironmentProvider.get_environment ⟨nbW⟩ cfgW = (nbW.idx, nbW.offset) ∧
    FakeEnvironmentProvider.get_environment ⟨nbW⟩ cfgW =
      FakeEnvironmentProvider.get_environment ⟨nbW⟩ cfgW2 ∧
    (∀ r, (stW.process envW buildW cfgW2 none 0 0).result = Except.ok r →
      r.converted.inputs =
        buildW cfgW2 (FakeEnvironmentProvider.get_environment ⟨r.converted.neighborhood⟩)) :=
  fake_provider_from_cache nbW cfgW cfgW2 envW buildW stW cfgW2 none 0 0

/-- C10: if the environment provider raises during a stale call, the cached
configuration has already been overwritten with (a copy of) the incoming
one while the cached neighborhood still holds the previous call's value, so
the two cached fields no longer correspond to the same configuration. -/
theorem error_leaves_cache_inconsistent {I E : Type}
    (env : ℚ → Config → Except E (List (ℕ × ℕ) × List Vec3))
    (build : Config → (Config → List (ℕ × ℕ) × List Vec3) → I)
    (st : Converter) (cfg : Config) (kwargs : Option Bool) (t0 t1 : ℚ)
    (e : E) (nbOld : Neighborhood)
    (hstale : st.needsUpdate cfg = true)
    (henv : env st.cutoff cfg = Except.error e)
    (hnb : st.neighborhood = some nbOld) :
    (st.process env build cfg kwargs t0 t1).state.atoms = some cfg ∧
    (st.process env build cfg kwargs t0 t1).state.neighborhood = some nbOld ∧
    (st.process env build cfg kwargs t0 t1).result = Except.error e := by
  have hg : Converter.get_neighborhood env
      { skin := st.skin, cutoff := st.cutoff, atoms := some cfg, neighborhood := some nbOld }
      cfg = Except.error e := by
    unfold Converter.get_neighborhood
    simp only [henv]
  unfold Converter.process
  simp only [hstale, if_true, hnb]
  simp [hg]

/-- Witness for C10 at a concrete stale call with a raising provider. -/
theorem error_leaves_cache_inconsistent_witness :
    (stW.process envErr buildW cfgW2 none 0 0).state.atoms = some cfgW2 ∧
    (stW.process envErr buildW cfgW2 none 0 0).state.neighborhood = some nbW ∧
    (stW.process envErr buildW cfgW2 none 0 0).result = Except.error () := by
  refine error_leaves_cache_inconsistent envErr buildW stW cfgW2 none 0 0 () nbW ?_ rfl rfl
  rw [needsUpdate_some stW cfgW cfgW2 rfl]
  refine (needsUpdateFrom_eq_true_iff stW cfgW cfgW2).mpr (Or.inr (Or.inr ?_))
  norm_num [maxSqDisp, sqDist, cfgW, cfgW2, stW, max_def]

end Schnetkit
